import Mathlib

/-!
Shallow embedding over ℚ of the numerical core of the repository:
`src/numeric/ode.py` (ODE solvers) and `src/numeric/sde.py` (1-d PDE solvers).
Machine floats are modelled as exact rationals, numpy arrays as lists, and
cells of an `np.empty` buffer that the code never writes as `none`.
-/

namespace Helper

theorem getD_cons_succ' {α : Type} (a : α) (l : List α) (j : ℕ) (d : α) :
    (a :: l).getD (j + 1) d = l.getD j d := by
  simp [List.getD]

theorem getD_set_ne {α : Type} (l : List α) (i j : ℕ) (v d : α) (h : i ≠ j) :
    (l.set i v).getD j d = l.getD j d := by
  induction l generalizing i j with
  | nil => simp
  | cons a l ih =>
    cases i with
    | zero =>
      cases j with
      | zero => exact absurd rfl h
      | succ j => simp [List.getD]
    | succ i =>
      cases j with
      | zero => simp [List.getD]
      | succ j =>
        simp only [List.set, getD_cons_succ']
        exact ih i j (by omega)

theorem getD_set_self {α : Type} (l : List α) (i : ℕ) (v d : α) (h : i < l.length) :
    (l.set i v).getD i d = v := by
  induction l generalizing i with
  | nil => simp at h
  | cons a l ih =>
    cases i with
    | zero => simp [List.getD]
    | succ i =>
      simp only [List.set, getD_cons_succ']
      exact ih i (by simpa using h)

theorem getD_replicate' {α : Type} (n i : ℕ) (a d : α) (h : i < n) :
    (List.replicate n a).getD i d = a := by
  induction n generalizing i with
  | zero => omega
  | succ n ih =>
    cases i with
    | zero => simp [List.getD]
    | succ i =>
      simp only [List.replicate, getD_cons_succ']
      exact ih i (by omega)

theorem getD_map_of_lt {α β : Type} (f : α → β) (l : List α) (i : ℕ) (d : β) (e : α)
    (h : i < l.length) : (l.map f).getD i d = f (l.getD i e) := by
  induction l generalizing i with
  | nil => simp at h
  | cons a l ih =>
    cases i with
    | zero => simp [List.getD]
    | succ i =>
      simp only [List.map, getD_cons_succ']
      exact ih i (by simpa using h)

theorem getD_range_map {β : Type} (f : ℕ → β) (n i : ℕ) (d : β) (h : i < n) :
    ((List.range n).map f).getD i d = f i := by
  rw [getD_map_of_lt f _ i d 0 (by simpa using h)]
  congr 1
  rw [List.getD_eq_getElem _ _ (by simpa using h)]
  exact List.getElem_range _ _

theorem getLastD_eq_getD {α : Type} (l : List α) (d : α) :
    l.getLastD d = l.getD (l.length - 1) d := by
  induction l generalizing d with
  | nil => simp
  | cons a l ih =>
    cases l with
    | nil => simp [List.getD]
    | cons b m =>
      have h1 : (a :: b :: m).getLastD d = (b :: m).getLastD a := by
        simp [List.getLastD]
      rw [h1, ih a]
      have h2 : (a :: b :: m).length - 1 = ((b :: m).length - 1) + 1 := by simp
      rw [h2, getD_cons_succ']
      have hlt : (b :: m).length - 1 < (b :: m).length := by simp
      rw [List.getD_eq_getElem _ _ (by simpa using hlt),
          List.getD_eq_getElem _ _ (by simpa using hlt)]

theorem getD_drop {α : Type} (l : List α) (i j : ℕ) (d : α) :
    (l.drop i).getD j d = l.getD (i + j) d := by
  induction l generalizing i with
  | nil => simp
  | cons a l ih =>
    cases i with
    | zero => simp
    | succ i =>
      simp only [List.drop]
      rw [ih i]
      have : i + 1 + j = (i + j) + 1 := by omega
      rw [this, getD_cons_succ']

theorem zip_map_getD {α β γ : Type} (g : α → β → γ) (as : List α) (bs : List β)
    (r : ℕ) (d : γ) (da : α) (db : β) (h1 : r < as.length) (h2 : r < bs.length) :
    (((as.zip bs).map (fun p => g p.1 p.2))).getD r d = g (as.getD r da) (bs.getD r db) := by
  induction as generalizing bs r with
  | nil => simp at h1
  | cons a as ih =>
    cases bs with
    | nil => simp at h2
    | cons b bs =>
      cases r with
      | zero => simp [List.getD]
      | succ r =>
        simp only [List.zip_cons_cons, List.map, getD_cons_succ']
        exact ih bs r (by simpa using h1) (by simpa using h2)

theorem length_zip_map {α β γ : Type} (g : α → β → γ) (as : List α) (bs : List β) :
    (((as.zip bs).map (fun p => g p.1 p.2))).length = min as.length bs.length := by
  simp

end Helper

/-! ## Fixed-step grid construction (`_grid_step_size` in ode.py and sde.py)

`np.linspace(start, stop, num)` over exact rationals. -/

def linspace (a b : ℚ) (n : ℕ) : List ℚ :=
  if n = 0 then []
  else if n = 1 then [a]
  else (List.range n).map (fun i : ℕ => a + (b - a) * (i : ℚ) / ((n : ℚ) - 1))

/-- Iteration count `int(np.ceil(np.abs(end - start) / step_size + 1))`. -/
def grid_niters (start endv step_size : ℚ) : ℕ :=
  (⌈|endv - start| / step_size + 1⌉).toNat

namespace Ode

/-- Embeds `_BasedODE._grid_step_size` from src/numeric/ode.py: the returned
closure takes `(func, y0, t)` and ignores `func` and `y0`. -/
def _grid_step_size (step_size : ℚ) (func : ℚ → ℚ → ℚ) (y0 : ℚ) (t : List ℚ) : List ℚ :=
  let start := t.getD 0 0
  let endv := t.getLastD 0
  linspace start endv (grid_niters start endv step_size)

end Ode

namespace Sde

/-- Embeds `_grid_step_size` shared by `WaveEquationSolver1d` and
`DiffusionEquationSolver1d` in src/numeric/sde.py: the closure takes `val`. -/
def _grid_step_size (step_size : ℚ) (val : List ℚ) : List ℚ :=
  let start := val.getD 0 0
  let endv := val.getLastD 0
  linspace start endv (grid_niters start endv step_size)

end Sde

section GridFacts

theorem linspace_length (a b : ℚ) (n : ℕ) : (linspace a b n).length = n := by
  unfold linspace
  split
  · simp; omega
  · split
    · simp; omega
    · simp

theorem linspace_getD (a b : ℚ) (n i : ℕ) (h2 : 2 ≤ n) (hi : i < n) :
    (linspace a b n).getD i 0 = a + (b - a) * (i : ℚ) / ((n : ℚ) - 1) := by
  unfold linspace
  rw [if_neg (by omega), if_neg (by omega)]
  exact Helper.getD_range_map _ n i 0 hi

end GridFacts

/-- C4: for every step size `h > 0` and endpoints `start < endv`, the fixed-step
grid builder (shared by the ODE and PDE solvers) returns a grid whose first
element is `start`, whose last element is `endv`, whose length is
`⌈(endv - start)/h⌉ + 1`, whose spacing is uniform, and whose realized spacing
is at most the requested `h`. -/
theorem C4_fixed_step_grid (h start endv : ℚ) (f : ℚ → ℚ → ℚ) (y0 : ℚ)
    (hh : 0 < h) (hlt : start < endv) :
    Ode._grid_step_size h f y0 [start, endv] = Sde._grid_step_size h [start, endv] ∧
    (Sde._grid_step_size h [start, endv]).getD 0 0 = start ∧
    (Sde._grid_step_size h [start, endv]).getLastD 0 = endv ∧
    (Sde._grid_step_size h [start, endv]).length = (⌈(endv - start) / h⌉).toNat + 1 ∧
    (∀ i, i + 1 < (Sde._grid_step_size h [start, endv]).length →
      (Sde._grid_step_size h [start, endv]).getD (i + 1) 0 -
        (Sde._grid_step_size h [start, endv]).getD i 0 =
      (endv - start) / (((Sde._grid_step_size h [start, endv]).length - 1 : ℕ) : ℚ)) ∧
    (endv - start) / (((Sde._grid_step_size h [start, endv]).length - 1 : ℕ) : ℚ) ≤ h := by
  have hD : 0 < endv - start := by linarith
  have hceil : (1 : ℤ) ≤ ⌈(endv - start) / h⌉ := by
    have := Int.ceil_pos.mpr (div_pos hD hh)
    omega
  set c : ℤ := ⌈(endv - start) / h⌉ with hc
  have hstart : ([start, endv] : List ℚ).getD 0 0 = start := rfl
  have hlast : ([start, endv] : List ℚ).getLastD 0 = endv := rfl
  have habs : |endv - start| = endv - start := abs_of_pos hD
  have hn : grid_niters start endv h = c.toNat + 1 := by
    unfold grid_niters
    rw [habs, Int.ceil_add_one]
    omega
  have hn2 : 2 ≤ grid_niters start endv h := by omega
  have hcastne : (((grid_niters start endv h : ℕ) - 1 : ℕ) : ℚ) ≠ 0 := by
    have : 1 ≤ grid_niters start endv h - 1 := by omega
    exact_mod_cast Nat.one_le_iff_ne_zero.mp this
  have hgrid : Sde._grid_step_size h [start, endv] =
      linspace start endv (grid_niters start endv h) := rfl
  have hlen : (Sde._grid_step_size h [start, endv]).length = grid_niters start endv h := by
    rw [hgrid, linspace_length]
  have hsub : (((grid_niters start endv h : ℕ) - 1 : ℕ) : ℚ) =
      ((grid_niters start endv h : ℕ) : ℚ) - 1 := by
    rw [Nat.cast_sub (by omega)]
    norm_num
  have hne : ((grid_niters start endv h : ℕ) : ℚ) - 1 ≠ 0 := by
    rw [← hsub]
    exact hcastne
  refine ⟨rfl, ?_, ?_, ?_, ?_, ?_⟩
  · rw [hgrid, linspace_getD _ _ _ 0 hn2 (by omega)]
    norm_num
  · rw [hgrid, Helper.getLastD_eq_getD, linspace_length,
        linspace_getD _ _ _ _ hn2 (by omega)]
    rw [hsub, mul_div_assoc, div_self hne]
    ring
  · rw [hlen, hn]
  · intro i hi
    rw [hlen] at hi
    rw [hgrid, linspace_getD _ _ _ _ hn2 (by omega), linspace_getD _ _ _ _ hn2 (by omega),
        linspace_length, hsub]
    field_simp
    ring
  · rw [hlen]
    have hcnat : (((grid_niters start endv h : ℕ) - 1 : ℕ) : ℚ) = (c : ℚ) := by
      rw [hn]
      simp only [Nat.add_sub_cancel]
      exact_mod_cast Int.toNat_of_nonneg (by omega)
    rw [hcnat]
    have hcq : (0 : ℚ) < (c : ℚ) := by exact_mod_cast hceil.trans_lt' (by norm_num)
    rw [div_le_iff₀ hcq]
    have hle : (endv - start) / h ≤ (c : ℚ) := Int.le_ceil _
    calc endv - start = ((endv - start) / h) * h := by field_simp
    _ ≤ (c : ℚ) * h := by
        apply mul_le_mul_of_nonneg_right hle hh.le
    _ = h * (c : ℚ) := by ring

/-- C4 witness: concrete instance `h = 3, [start, endv] = [0, 10]`, so the grid
is `linspace 0 10 5` with realized spacing `5/2 ≤ 3`. -/
theorem C4_fixed_step_grid_witness :
    Ode._grid_step_size 3 (fun _ _ => 0) 0 [0, 10] = Sde._grid_step_size 3 [0, 10] ∧
    (Sde._grid_step_size 3 [0, 10]).getD 0 0 = 0 ∧
    (Sde._grid_step_size 3 [0, 10]).getLastD 0 = 10 ∧
    (Sde._grid_step_size 3 [0, 10]).length = (⌈((10 : ℚ) - 0) / 3⌉).toNat + 1 ∧
    (∀ i, i + 1 < (Sde._grid_step_size 3 [0, 10]).length →
      (Sde._grid_step_size 3 [0, 10]).getD (i + 1) 0 -
        (Sde._grid_step_size 3 [0, 10]).getD i 0 =
      ((10 : ℚ) - 0) / (((Sde._grid_step_size 3 [0, 10]).length - 1 : ℕ) : ℚ)) ∧
    ((10 : ℚ) - 0) / (((Sde._grid_step_size 3 [0, 10]).length - 1 : ℕ) : ℚ) ≤ 3 :=
  C4_fixed_step_grid 3 0 10 (fun _ _ => 0) 0 (by norm_num) (by norm_num)

/-! ## ODE solvers (src/numeric/ode.py) -/

namespace Ode

/-- Which grid-construction rule `_BasedODE.__init__` ends up storing. -/
inductive GridChoice where
  | custom : GridChoice
  | fixedStep : ℚ → GridChoice
  | identity : GridChoice
deriving DecidableEq

/-- Embeds `_BasedODE.__init__`: the if/elif chain choosing `self.grid_constr`.
`grid_constr` supplied is modelled by the Boolean flag; the final `raise` branch
of the Python code is kept verbatim (it is unreachable: the three branches
cover all cases). -/
def init (step_size : Option ℚ) (grid_constr : Bool) : Except String GridChoice :=
  if grid_constr then Except.ok GridChoice.custom
  else if ¬grid_constr ∧ step_size.isSome then
    Except.ok (GridChoice.fixedStep (step_size.getD 0))
  else if ¬grid_constr ∧ step_size.isNone then Except.ok GridChoice.identity
  else Except.error "step_size and grid_constr are mutually exclusive arguments."

/-- Embeds `EulerSolver._step`. -/
def EulerStep (func : ℚ → ℚ → ℚ) (t0 dt t1 y : ℚ) : ℚ := dt * func t0 y

/-- Embeds `SimpsonSolver._step`. -/
def SimpsonStep (func : ℚ → ℚ → ℚ) (t0 dt t1 y : ℚ) : ℚ :=
  let q1 := func t0 y
  let q2 := func (t0 + (1/2) * dt) (y + (1/2) * q1 * dt)
  let q3 := func (t0 + dt) (y + (1/2) * q1 * dt + (1/2) * q2 * dt)
  dt * (q1 + 4 * q2 + q3) / 6

/-- Embeds `RK4Solver._step`. -/
def RK4Step (func : ℚ → ℚ → ℚ) (t0 dt t1 y : ℚ) : ℚ :=
  let q1 := func t0 y
  let q2 := func (t0 + (1/2) * dt) (y + (1/2) * q1 * dt)
  let q3 := func (t0 + (1/2) * dt) (y + (1/2) * q2 * dt)
  let q4 := func (t0 + dt) (y + q3 * dt)
  dt * (q1 + 2 * q2 + 2 * q3 + q4) / 6

/-- Values produced by iterating the raw stepper along the marching grid after
the first grid point: `y1 = y0 + step` at each consecutive pair, as in the
`for t0, t1 in zip(time_grid[:-1], time_grid[1:])` loop of `__call__`. -/
def rawTail (stepF : (ℚ → ℚ → ℚ) → ℚ → ℚ → ℚ → ℚ → ℚ) (func : ℚ → ℚ → ℚ) :
    ℚ → ℚ → List ℚ → List ℚ
  | _, _, [] => []
  | y, t0, t1 :: rest =>
    let y1 := y + stepF func t0 (t1 - t0) t1 y
    y1 :: rawTail stepF func y1 t1 rest

/-- The whole raw-stepper trajectory along a grid, starting at `y0`. -/
def rawSolution (stepF : (ℚ → ℚ → ℚ) → ℚ → ℚ → ℚ → ℚ → ℚ) (func : ℚ → ℚ → ℚ)
    (y0 : ℚ) : List ℚ → List ℚ
  | [] => []
  | t0 :: rest => y0 :: rawTail stepF func y0 t0 rest

theorem rawTail_length (stepF : (ℚ → ℚ → ℚ) → ℚ → ℚ → ℚ → ℚ → ℚ) (func : ℚ → ℚ → ℚ) :
    ∀ (rest : List ℚ) (y t0 : ℚ), (rawTail stepF func y t0 rest).length = rest.length := by
  intro rest
  induction rest with
  | nil => intro y t0; rfl
  | cons t1 r ih => intro y t0; simp [rawTail, ih]

theorem rawTail_const (stepF : (ℚ → ℚ → ℚ) → ℚ → ℚ → ℚ → ℚ → ℚ) (func : ℚ → ℚ → ℚ)
    (c : ℚ) (hstep : ∀ t0 dt t1 y, stepF func t0 dt t1 y = c * dt) :
    ∀ (rest : List ℚ) (t0 y : ℚ) (k : ℕ), k < rest.length →
      (rawTail stepF func y t0 rest).getD k 0 = y + c * (rest.getD k 0 - t0) := by
  intro rest
  induction rest with
  | nil => intro t0 y k hk; simp at hk
  | cons t1 r ih =>
    intro t0 y k hk
    cases k with
    | zero =>
      simp only [rawTail, List.getD_cons_zero, hstep]
    | succ k =>
      simp only [rawTail, Helper.getD_cons_succ']
      rw [hstep, ih t1 (y + c * (t1 - t0)) k (by simpa using hk)]
      ring

theorem rawSolution_const (stepF : (ℚ → ℚ → ℚ) → ℚ → ℚ → ℚ → ℚ → ℚ) (func : ℚ → ℚ → ℚ)
    (c y0 : ℚ) (hstep : ∀ t0 dt t1 y, stepF func t0 dt t1 y = c * dt) :
    ∀ (grid : List ℚ) (k : ℕ), k < grid.length →
      (rawSolution stepF func y0 grid).getD k 0 =
        y0 + c * (grid.getD k 0 - grid.getD 0 0) := by
  intro grid k hk
  cases grid with
  | nil => simp at hk
  | cons g0 rest =>
    cases k with
    | zero => simp [rawSolution]
    | succ k =>
      simp only [rawSolution, Helper.getD_cons_succ', List.getD_cons_zero]
      exact rawTail_const stepF func c hstep rest g0 y0 k (by simpa using hk)

end Ode

/-- C5: for a constant derivative `f(t, y) = c`, each of the three stepper
variants returns the increment `c * dt` exactly, and therefore the marched
trajectory reproduces the analytic solution `y0 + c * (t - t0)` at every grid
point, for every stepper variant. -/
theorem C5_constant_derivative_exact (c y0 t0 dt t1 y : ℚ) (grid : List ℚ) (k : ℕ)
    (hk : k < grid.length) :
    Ode.EulerStep (fun _ _ => c) t0 dt t1 y = c * dt ∧
    Ode.SimpsonStep (fun _ _ => c) t0 dt t1 y = c * dt ∧
    Ode.RK4Step (fun _ _ => c) t0 dt t1 y = c * dt ∧
    (Ode.rawSolution Ode.EulerStep (fun _ _ => c) y0 grid).getD k 0 =
      y0 + c * (grid.getD k 0 - grid.getD 0 0) ∧
    (Ode.rawSolution Ode.SimpsonStep (fun _ _ => c) y0 grid).getD k 0 =
      y0 + c * (grid.getD k 0 - grid.getD 0 0) ∧
    (Ode.rawSolution Ode.RK4Step (fun _ _ => c) y0 grid).getD k 0 =
      y0 + c * (grid.getD k 0 - grid.getD 0 0) := by
  have heuler : ∀ a b e w, Ode.EulerStep (fun _ _ => c) a b e w = c * b := by
    intro a b e w
    simp only [Ode.EulerStep]
    ring
  have hsimpson : ∀ a b e w, Ode.SimpsonStep (fun _ _ => c) a b e w = c * b := by
    intro a b e w
    simp only [Ode.SimpsonStep]
    ring
  have hrk4 : ∀ a b e w, Ode.RK4Step (fun _ _ => c) a b e w = c * b := by
    intro a b e w
    simp only [Ode.RK4Step]
    ring
  exact ⟨heuler t0 dt t1 y, hsimpson t0 dt t1 y, hrk4 t0 dt t1 y,
    Ode.rawSolution_const _ _ c y0 heuler grid k hk,
    Ode.rawSolution_const _ _ c y0 hsimpson grid k hk,
    Ode.rawSolution_const _ _ c y0 hrk4 grid k hk⟩

/-- C5 witness: concrete instance `c = 2, y0 = 1`, grid `[0, 1, 3]`, `k = 2`. -/
theorem C5_constant_derivative_exact_witness :
    Ode.EulerStep (fun _ _ => (2 : ℚ)) 0 5 5 1 = 2 * 5 ∧
    Ode.SimpsonStep (fun _ _ => (2 : ℚ)) 0 5 5 1 = 2 * 5 ∧
    Ode.RK4Step (fun _ _ => (2 : ℚ)) 0 5 5 1 = 2 * 5 ∧
    (Ode.rawSolution Ode.EulerStep (fun _ _ => (2 : ℚ)) 1 [0, 1, 3]).getD 2 0 =
      1 + 2 * (([0, 1, 3] : List ℚ).getD 2 0 - ([0, 1, 3] : List ℚ).getD 0 0) ∧
    (Ode.rawSolution Ode.SimpsonStep (fun _ _ => (2 : ℚ)) 1 [0, 1, 3]).getD 2 0 =
      1 + 2 * (([0, 1, 3] : List ℚ).getD 2 0 - ([0, 1, 3] : List ℚ).getD 0 0) ∧
    (Ode.rawSolution Ode.RK4Step (fun _ _ => (2 : ℚ)) 1 [0, 1, 3]).getD 2 0 =
      1 + 2 * (([0, 1, 3] : List ℚ).getD 2 0 - ([0, 1, 3] : List ℚ).getD 0 0) :=
  C5_constant_derivative_exact 2 1 0 5 5 1 [0, 1, 3] 2 (by norm_num)

namespace Ode

/-- Embeds `_BasedODE._linear_interp`. -/
def _linear_interp (t0 t1 y0 y1 t : ℚ) : ℚ :=
  y0 + (t - t0) / (t1 - t0) * (y1 - y0)

/-- The inner `while i < t.shape[0] and t1 >= t[i]` loop of `_BasedODE.__call__`
in mode `interp = 'linear'`: writes the interpolated value at the cursor and
advances it.  The loop runs at most `ts.length - i` times since `i` increases
and is bounded by `ts.length`; `fuel` carries exactly that bound. -/
def writeLoopAux (t0 t1 y0 y1 : ℚ) (ts : List ℚ) :
    ℕ → ℕ → List (Option ℚ) → ℕ × List (Option ℚ)
  | 0, i, sol => (i, sol)
  | fuel + 1, i, sol =>
    if i < ts.length ∧ ts.getD i 0 ≤ t1 then
      writeLoopAux t0 t1 y0 y1 ts fuel (i + 1)
        (sol.set i (some (_linear_interp t0 t1 y0 y1 (ts.getD i 0))))
    else (i, sol)

def writeLoop (t0 t1 y0 y1 : ℚ) (ts : List ℚ) (i : ℕ) (sol : List (Option ℚ)) :
    ℕ × List (Option ℚ) :=
  writeLoopAux t0 t1 y0 y1 ts (ts.length - i) i sol

/-- The outer `for t0, t1 in zip(time_grid[:-1], time_grid[1:])` loop of
`_BasedODE.__call__`: steps the state and lets the write loop advance the
requested-times cursor. -/
def marchLoop (stepF : (ℚ → ℚ → ℚ) → ℚ → ℚ → ℚ → ℚ → ℚ) (func : ℚ → ℚ → ℚ)
    (ts : List ℚ) : ℚ → ℚ → List ℚ → ℕ → List (Option ℚ) → List (Option ℚ)
  | _, _, [], _, sol => sol
  | y0, t0, t1 :: rest, i, sol =>
    let dt := t1 - t0
    let dy := stepF func t0 dt t1 y0
    let y1 := y0 + dy
    let p := writeLoop t0 t1 y0 y1 ts i sol
    marchLoop stepF func ts y1 t1 rest p.1 p.2

/-- Embeds `_BasedODE.__call__` with `interp = 'linear'`: the `time_grid` is
the already-built marching grid (result of `self.grid_constr`), `t` the
requested output times.  The endpoint assertion is the `Except.error` branch;
`np.empty` cells are `none`, and `solution[0] = y0` seeds index 0. -/
def call (stepF : (ℚ → ℚ → ℚ) → ℚ → ℚ → ℚ → ℚ → ℚ) (func : ℚ → ℚ → ℚ)
    (y0 : ℚ) (time_grid t : List ℚ) : Except String (List (Option ℚ)) :=
  if time_grid.getD 0 0 = t.getD 0 0 ∧ time_grid.getLastD 0 = t.getLastD 0 then
    match time_grid with
    | [] => Except.ok ((List.replicate t.length (none : Option ℚ)).set 0 (some y0))
    | t0 :: rest =>
      Except.ok (marchLoop stepF func t y0 t0 rest 1
        ((List.replicate t.length (none : Option ℚ)).set 0 (some y0)))
  else Except.error "grid and real edge points must be equal."

/-- Writes `some v` for each value of `vs` at consecutive indices from `i`. -/
def setEach : List (Option ℚ) → ℕ → List ℚ → List (Option ℚ)
  | sol, _, [] => sol
  | sol, i, v :: vs => setEach (sol.set i (some v)) (i + 1) vs

theorem writeLoop_writes_one (t0 t1 y0 y1 : ℚ) (ts : List ℚ) (i : ℕ)
    (sol : List (Option ℚ)) (rest' : List ℚ)
    (hdrop : ts.drop i = t1 :: rest')
    (hne : t0 ≠ t1)
    (hnext : ∀ v, rest'.head? = some v → t1 < v) :
    writeLoop t0 t1 y0 y1 ts i sol = (i + 1, sol.set i (some y1)) := by
  have hlen : ts.length - i = rest'.length + 1 := by
    have h := congrArg List.length hdrop
    simpa using h
  have hi : i < ts.length := by omega
  have hgetD : ts.getD i 0 = t1 := by
    have h := Helper.getD_drop ts i 0 0
    rw [hdrop] at h
    simpa using h.symm
  have ht1t0 : t1 - t0 ≠ 0 := sub_ne_zero.mpr (Ne.symm hne)
  have hinterp : _linear_interp t0 t1 y0 y1 t1 = y1 := by
    unfold _linear_interp
    rw [div_self ht1t0]
    ring
  unfold writeLoop
  rw [hlen]
  simp only [writeLoopAux, if_pos (And.intro hi (le_of_eq hgetD))]
  rw [hgetD, hinterp]
  cases rest' with
  | nil => rfl
  | cons v r =>
    have hgetD1 : ts.getD (i + 1) 0 = v := by
      have h := Helper.getD_drop ts i 1 0
      rw [hdrop] at h
      simpa using h.symm
    have hvlt : t1 < v := hnext v rfl
    simp only [writeLoopAux]
    rw [if_neg]
    intro hcond
    rw [hgetD1] at hcond
    exact absurd hcond.2 (not_le.mpr hvlt)

theorem marchLoop_grid (stepF : (ℚ → ℚ → ℚ) → ℚ → ℚ → ℚ → ℚ → ℚ)
    (func : ℚ → ℚ → ℚ) (ts : List ℚ) :
    ∀ (rest : List ℚ) (t0 y : ℚ) (i : ℕ) (sol : List (Option ℚ)),
      ts.drop i = rest →
      List.Chain (· < ·) t0 rest →
      marchLoop stepF func ts y t0 rest i sol =
        setEach sol i (rawTail stepF func y t0 rest) := by
  intro rest
  induction rest with
  | nil => intro t0 y i sol hdrop hchain; rfl
  | cons t1 rest' ih =>
    intro t0 y i sol hdrop hchain
    rw [List.chain_cons] at hchain
    have hnext : ∀ v, rest'.head? = some v → t1 < v := by
      intro v hv
      cases rest' with
      | nil => simp at hv
      | cons w r =>
        have hw : w = v := by simpa using hv
        subst hw
        exact (List.chain_cons.mp hchain.2).1
    have hwl := writeLoop_writes_one t0 t1 y (y + stepF func t0 (t1 - t0) t1 y) ts i sol
      rest' hdrop (ne_of_lt hchain.1) hnext
    have hdrop' : ts.drop (i + 1) = rest' := by
      rw [← List.tail_drop, hdrop]
      rfl
    simp only [marchLoop, rawTail, setEach]
    rw [hwl]
    exact ih t1 _ (i + 1) _ hdrop' hchain.2

theorem set_at_append {α : Type} (pre : List α) (a b : α) (l : List α) :
    (pre ++ a :: l).set pre.length b = pre ++ b :: l := by
  induction pre with
  | nil => rfl
  | cons p ps ih =>
    show p :: ((ps ++ a :: l).set ps.length b) = p :: (ps ++ b :: l)
    rw [ih]

theorem setEach_append (vs : List ℚ) :
    ∀ (pre suf : List (Option ℚ)), suf.length = vs.length →
      setEach (pre ++ suf) pre.length vs = pre ++ vs.map some := by
  induction vs with
  | nil =>
    intro pre suf hsuf
    have : suf = [] := List.length_eq_zero.mp hsuf
    subst this
    rfl
  | cons v vs' ih =>
    intro pre suf hsuf
    cases suf with
    | nil => simp at hsuf
    | cons s0 suf' =>
      show setEach ((pre ++ s0 :: suf').set pre.length (some v)) (pre.length + 1) vs'
        = pre ++ (v :: vs').map some
      rw [set_at_append]
      have hstep : pre ++ some v :: suf' = (pre ++ [some v]) ++ suf' := by
        simp
      have hlen1 : pre.length + 1 = (pre ++ [some v]).length := by
        simp
      rw [hstep, hlen1, ih (pre ++ [some v]) suf' (by simpa using hsuf)]
      simp

theorem writeLoopAux_preserve (t0 t1 y0 y1 : ℚ) (ts : List ℚ) (i : ℕ)
    (hi : t1 < ts.getD i 0) :
    ∀ (fuel j : ℕ) (sol : List (Option ℚ)),
      ((writeLoopAux t0 t1 y0 y1 ts fuel j sol).2).getD i (some 0) =
        sol.getD i (some 0) := by
  intro fuel
  induction fuel with
  | zero => intro j sol; rfl
  | succ fuel ih =>
    intro j sol
    by_cases hcond : j < ts.length ∧ ts.getD j 0 ≤ t1
    · have hji : j ≠ i := by
        intro hji
        rw [hji] at hcond
        exact absurd hcond.2 (not_le.mpr hi)
      simp only [writeLoopAux, if_pos hcond]
      rw [ih]
      exact Helper.getD_set_ne _ _ _ _ _ hji
    · simp only [writeLoopAux, if_neg hcond]

theorem marchLoop_preserve (stepF : (ℚ → ℚ → ℚ) → ℚ → ℚ → ℚ → ℚ → ℚ)
    (func : ℚ → ℚ → ℚ) (ts : List ℚ) (i : ℕ) :
    ∀ (rest : List ℚ) (t0 y : ℚ) (j : ℕ) (sol : List (Option ℚ)),
      (∀ g ∈ rest, g < ts.getD i 0) →
      (marchLoop stepF func ts y t0 rest j sol).getD i (some 0) =
        sol.getD i (some 0) := by
  intro rest
  induction rest with
  | nil => intro t0 y j sol hmem; rfl
  | cons t1 rest' ih =>
    intro t0 y j sol hmem
    simp only [marchLoop]
    rw [ih t1 _ _ _ (fun g hg => hmem g (List.mem_cons_of_mem _ hg))]
    unfold writeLoop
    exact writeLoopAux_preserve t0 t1 y _ ts i (hmem t1 (List.mem_cons_self _ _)) _ j sol

end Ode

/-- Reads one cell of an ODE solution buffer wrapped in `Except`; a raised
assertion is mapped to `some 0` so that `none` unambiguously means "cell never
written" (modelling the uninitialized `np.empty` storage). -/
def cell1d (r : Except String (List (Option ℚ))) (i : ℕ) : Option ℚ :=
  match r with
  | Except.error _ => some 0
  | Except.ok sol => sol.getD i (some 0)

/-- C7: running the ODE engine in linear-interpolation mode with requested
times equal to exactly the internal marching grid returns, at every index, the
value produced by iterating the raw stepper: the linear interpolation at a grid
point `t1` returns `y1` exactly, so projection is a no-op at grid points. -/
theorem C7_roundtrip_grid_times (stepF : (ℚ → ℚ → ℚ) → ℚ → ℚ → ℚ → ℚ → ℚ)
    (func : ℚ → ℚ → ℚ) (y0 : ℚ) (grid : List ℚ)
    (hne : grid ≠ []) (hsort : List.Chain' (· < ·) grid) :
    Ode.call stepF func y0 grid grid =
      Except.ok ((Ode.rawSolution stepF func y0 grid).map some) := by
  cases grid with
  | nil => exact absurd rfl hne
  | cons t0 rest =>
    have hcond : (t0 :: rest).getD 0 0 = (t0 :: rest).getD 0 0 ∧
        (t0 :: rest).getLastD 0 = (t0 :: rest).getLastD 0 := ⟨rfl, rfl⟩
    simp only [Ode.call, if_pos hcond]
    congr 1
    have hchain : List.Chain (· < ·) t0 rest := hsort
    rw [Ode.marchLoop_grid stepF func (t0 :: rest) rest t0 y0 1 _ rfl hchain]
    have hsol0 : (List.replicate (t0 :: rest).length (none : Option ℚ)).set 0 (some y0)
        = [some y0] ++ List.replicate rest.length none := by
      simp [List.replicate_succ]
    rw [hsol0]
    have happ := Ode.setEach_append (Ode.rawTail stepF func y0 t0 rest)
      [some y0] (List.replicate rest.length none)
      (by simp [Ode.rawTail_length])
    simpa [Ode.rawSolution] using happ

/-- C7 witness: Euler stepper, derivative `f(t, y) = y`, `y0 = 1`, marching
grid and requested times both `[0, 1, 2]`. -/
theorem C7_roundtrip_grid_times_witness :
    Ode.call Ode.EulerStep (fun _ y => y) 1 [0, 1, 2] [0, 1, 2] =
      Except.ok ((Ode.rawSolution Ode.EulerStep (fun _ y => y) 1 [0, 1, 2]).map some) :=
  C7_roundtrip_grid_times Ode.EulerStep (fun _ y => y) 1 [0, 1, 2]
    (by decide)
    (by exact List.Chain.cons (by norm_num) (List.Chain.cons (by norm_num) List.Chain.nil))

/-- C8: a requested output time that lies beyond every marching-grid point
(never crossed by any marching step) is never written: its buffer cell keeps
the uninitialized `np.empty` contents, modelled as `none` — the "NaN" of the
claim.  Index 0 is excluded (it is always seeded with `y0`). -/
theorem C8_outside_span_nan (stepF : (ℚ → ℚ → ℚ) → ℚ → ℚ → ℚ → ℚ → ℚ)
    (func : ℚ → ℚ → ℚ) (y0 : ℚ) (grid t : List ℚ) (i : ℕ)
    (hends : grid.getD 0 0 = t.getD 0 0 ∧ grid.getLastD 0 = t.getLastD 0)
    (h1 : 1 ≤ i) (h2 : i < t.length)
    (hout : ∀ g ∈ grid, g < t.getD i 0) :
    cell1d (Ode.call stepF func y0 grid t) i = none := by
  have hinit : ((List.replicate t.length (none : Option ℚ)).set 0 (some y0)).getD i
      (some 0) = none := by
    rw [Helper.getD_set_ne _ _ _ _ _ (by omega)]
    exact Helper.getD_replicate' _ _ _ _ h2
  cases grid with
  | nil =>
    simp only [Ode.call, if_pos hends, cell1d]
    exact hinit
  | cons g0 rest =>
    simp only [Ode.call, if_pos hends, cell1d]
    rw [Ode.marchLoop_preserve stepF func t i rest g0 y0 1 _
      (fun g hg => hout g (List.mem_cons_of_mem _ hg))]
    exact hinit

/-- C8 witness: grid `[0, 1]`, requested times `[0, 5, 1]` (the endpoints agree
with the grid, but `t[1] = 5` lies beyond the marched span), index 1. -/
theorem C8_outside_span_nan_witness :
    cell1d (Ode.call Ode.EulerStep (fun _ _ => 0) 0 [0, 1] [0, 5, 1]) 1 = none :=
  C8_outside_span_nan Ode.EulerStep (fun _ _ => 0) 0 [0, 1] [0, 5, 1] 1
    (by constructor <;> rfl) (by decide) (by decide) (by decide)

/-! ## Constructors (`__init__` branch logic) -/

namespace Sde

/-- Which grid rules a PDE solver constructor ends up storing for the time and
space axes. -/
inductive PdeGridChoice where
  | custom : PdeGridChoice
  | fixedSteps : ℚ → ℚ → PdeGridChoice
  | identity : PdeGridChoice
deriving DecidableEq

namespace Wave

/-- Embeds the if/elif chain of `WaveEquationSolver1d.__init__`: the `raise`
fires exactly when `grid_constr is None` and only one of `time_step`,
`space_step` is supplied. -/
def init (time_step space_step : Option ℚ) (grid_constr : Bool) :
    Except String PdeGridChoice :=
  if grid_constr then Except.ok PdeGridChoice.custom
  else if ¬grid_constr ∧ time_step.isSome ∧ space_step.isSome then
    Except.ok (PdeGridChoice.fixedSteps (time_step.getD 0) (space_step.getD 0))
  else if ¬grid_constr ∧ time_step.isNone ∧ space_step.isNone then
    Except.ok PdeGridChoice.identity
  else Except.error "step_size and grid_constr are mutually exclusive arguments."

end Wave

namespace Diffusion

/-- Embeds the if/elif chain of `DiffusionEquationSolver1d.__init__` (textually
identical to the wave solver's). -/
def init (time_step space_step : Option ℚ) (grid_constr : Bool) :
    Except String PdeGridChoice :=
  if grid_constr then Except.ok PdeGridChoice.custom
  else if ¬grid_constr ∧ time_step.isSome ∧ space_step.isSome then
    Except.ok (PdeGridChoice.fixedSteps (time_step.getD 0) (space_step.getD 0))
  else if ¬grid_constr ∧ time_step.isNone ∧ space_step.isNone then
    Except.ok PdeGridChoice.identity
  else Except.error "step_size and grid_constr are mutually exclusive arguments."

end Diffusion

end Sde

/-- C2 counterexample: supplying both a step size and `grid_constr` raises no
error in any of the three constructors — each succeeds and silently stores the
custom rule. -/
theorem C2_counterexample :
    Ode.init (some 1) true = Except.ok Ode.GridChoice.custom ∧
    Sde.Wave.init (some 1) (some 1) true = Except.ok Sde.PdeGridChoice.custom ∧
    Sde.Diffusion.init (some 1) (some 1) true = Except.ok Sde.PdeGridChoice.custom :=
  ⟨rfl, rfl, rfl⟩

/-- C2 amended: whenever `grid_constr` is supplied, every constructor succeeds
with the custom rule regardless of which step sizes are also supplied — the
mutual-exclusion `ValueError` is never raised for the "both supplied" case;
`grid_constr` silently takes precedence. -/
theorem C2_amended_grid_constr_precedence (step_size time_step space_step : Option ℚ) :
    Ode.init step_size true = Except.ok Ode.GridChoice.custom ∧
    Sde.Wave.init time_step space_step true = Except.ok Sde.PdeGridChoice.custom ∧
    Sde.Diffusion.init time_step space_step true = Except.ok Sde.PdeGridChoice.custom :=
  ⟨rfl, rfl, rfl⟩

/-- C9: with `grid_constr` absent, supplying exactly one of `time_step` and
`space_step` makes both PDE constructors raise the mutual-exclusion
`ValueError`. -/
theorem C9_single_step_size_errors (tv hv : ℚ) :
    Sde.Wave.init (some tv) none false =
      Except.error "step_size and grid_constr are mutually exclusive arguments." ∧
    Sde.Wave.init none (some hv) false =
      Except.error "step_size and grid_constr are mutually exclusive arguments." ∧
    Sde.Diffusion.init (some tv) none false =
      Except.error "step_size and grid_constr are mutually exclusive arguments." ∧
    Sde.Diffusion.init none (some hv) false =
      Except.error "step_size and grid_constr are mutually exclusive arguments." :=
  ⟨rfl, rfl, rfl, rfl⟩

/-! ## PDE solvers (src/numeric/sde.py) -/

namespace Sde

/-- Assertion message of the diffusion stability guard. -/
def stabilityMsg : String := "The scheme diverges, choose other sizes of grid steps."

/-- Assertion message of the grid endpoint checks. -/
def edgeMsg : String := "grid and real edge points must be equal."

/-- Reads a solution cell as a rational; `none` (never-written `np.empty`
storage) falls back to `0`.  All reads performed by the marching loop hit
already-written cells, so the fallback is never observable. -/
def cellD (row : List (Option ℚ)) (j : ℕ) : ℚ := (row.getD j none).getD 0

/-- `solution[i, 1:-1] = vals`: replaces the interior entries of a row, keeping
both boundary columns. -/
def set_interior (row : List (Option ℚ)) (vals : List ℚ) : List (Option ℚ) :=
  (List.range row.length).map (fun j =>
    if 1 ≤ j ∧ j + 1 < row.length then some (vals.getD (j - 1) 0) else row.getD j none)

/-- `solution[:, k] = g(time_grid)`: writes column `k` of every row. -/
def col_set (k : ℕ) (g : ℚ → ℚ) (rows : List (List (Option ℚ))) (tg : List ℚ) :
    List (List (Option ℚ)) :=
  (rows.zip tg).map (fun p => p.1.set k (some (g p.2)))

/-- The `tau, h = (self.tau, self.h) if self.tau is not None ... else (grid
intervals)` selection in both `__call__` bodies (the Python condition tests
`self.tau` twice; with `self.tau` set but `self.h` unset Python would fail at
`h * h`, a configuration unreachable through a valid constructor — modelled
with fallback `0`). -/
def effective_steps (tauOpt hOpt : Option ℚ) (time_grid space_grid : List ℚ) : ℚ × ℚ :=
  match tauOpt with
  | some tv => (tv, hOpt.getD 0)
  | none => (time_grid.getD 1 0 - time_grid.getD 0 0,
             space_grid.getD 1 0 - space_grid.getD 0 0)

namespace Wave

/-- Embeds `WaveEquationSolver1d._coef_matrix`: entry `(r, c)` of
`-lam*sigma*eye(k=1) + (1+2*lam*sigma)*eye - lam*sigma*eye(k=-1)`. -/
def _coef_matrix (sigma lam : ℚ) (n : ℕ) : List (List ℚ) :=
  (List.range n).map (fun r => (List.range n).map (fun c =>
    (if c = r + 1 then -(lam * sigma) else 0)
    + (if c = r then 1 + 2 * lam * sigma else 0)
    + (if r = c + 1 then -(lam * sigma) else 0)))

/-- Embeds `WaveEquationSolver1d._ordinate_values`: the slices `u[i-1, 2:]`,
`u[i-1, 1:-1]`, `u[i-1, :-2]` (and the same for `u[i-2]`) read entries
`j + 2`, `j + 1`, `j` of the two previous rows. -/
def _ordinate_values (sigma lam : ℚ) (prev prev2 : List (Option ℚ)) : List ℚ :=
  (List.range (prev.length - 2)).map (fun j =>
    (1 - 2 * sigma) * lam * cellD prev (j + 2)
    + 2 * (1 - lam * (1 - 2 * sigma)) * cellD prev (j + 1)
    + (1 - 2 * sigma) * lam * cellD prev j
    + sigma * lam * cellD prev2 (j + 2)
    - (1 + 2 * lam * sigma) * cellD prev2 (j + 1)
    + lam * sigma * cellD prev2 j)

/-- Rows 0 and 1 of `WaveEquationSolver1d.__call__`'s seeding:
`solution[0] = u0(space_grid)` and
`solution[1] = u0(space_grid) + (t[1]-t[0])*ut0(space_grid)` (note: the
requested array `t`, not the built time grid), over an `np.empty` buffer. -/
def init_rows (u0 ut0 : ℚ → ℚ) (tg sg t : List ℚ) : List (List (Option ℚ)) :=
  ((tg.map (fun _ => sg.map (fun _ => (none : Option ℚ)))).set 0
      (sg.map (fun xv => some (u0 xv)))).set 1
    (sg.map (fun xv => some (u0 xv + (t.getD 1 0 - t.getD 0 0) * ut0 xv)))

/-- Seeding phase of `WaveEquationSolver1d.__call__`: rows 0 and 1, then both
boundary columns from `ua`, `ub`, in program order. -/
def seed (u0 ut0 ua ub : ℚ → ℚ) (tg sg t : List ℚ) : List (List (Option ℚ)) :=
  col_set (sg.length - 1) ub (col_set 0 ua (init_rows u0 ut0 tg sg t) tg) tg

/-- The `for i in range(2, len(time_grid))` marching loop: dense solve of the
assembled system, written into the interior of row `i`.  `np.linalg.solve` is
the abstract collaborator `linsolve`. -/
def march (linsolve : List (List ℚ) → List ℚ → List ℚ) (sigma lam : ℚ)
    (tg : List ℚ) (sol0 : List (List (Option ℚ))) : List (List (Option ℚ)) :=
  (List.range tg.length).foldl (fun s i =>
    if i < 2 then s
    else
      s.set i (set_interior (s.getD i [])
        (linsolve (_coef_matrix sigma lam ((s.getD 0 []).length - 2))
          (_ordinate_values sigma lam (s.getD (i - 1) []) (s.getD (i - 2) []))))) sol0

/-- Embeds `WaveEquationSolver1d.__call__`: endpoint assertions, mesh ratio
`lam = tau*tau/h/h`, seeding, then marching. -/
def call (tauOpt hOpt : Option ℚ) (u0 ut0 ua ub : ℚ → ℚ)
    (linsolve : List (List ℚ) → List ℚ → List ℚ)
    (time_grid space_grid t x : List ℚ) (sigma : ℚ) :
    Except String (List (List (Option ℚ))) :=
  if time_grid.getD 0 0 = t.getD 0 0 ∧ time_grid.getLastD 0 = t.getLastD 0 then
    if space_grid.getD 0 0 = x.getD 0 0 ∧ space_grid.getLastD 0 = x.getLastD 0 then
      Except.ok (march linsolve sigma
        ((effective_steps tauOpt hOpt time_grid space_grid).1 *
            (effective_steps tauOpt hOpt time_grid space_grid).1 /
            (effective_steps tauOpt hOpt time_grid space_grid).2 /
            (effective_steps tauOpt hOpt time_grid space_grid).2)
        time_grid (seed u0 ut0 ua ub time_grid space_grid t))
    else Except.error edgeMsg
  else Except.error edgeMsg

end Wave

namespace Diffusion

/-- Embeds `DiffusionEquationSolver1d._coef_matrix`: entry `(r, c)` of
`-sigma*lam*sigma*eye(k=1) + (1+2*lam*sigma)*eye - lam*sigma*eye(k=-1)` —
note the superdiagonal coefficient `-sigma*lam*sigma` of the source. -/
def _coef_matrix (sigma lam : ℚ) (n : ℕ) : List (List ℚ) :=
  (List.range n).map (fun r => (List.range n).map (fun c =>
    (if c = r + 1 then -sigma * lam * sigma else 0)
    + (if c = r then 1 + 2 * lam * sigma else 0)
    + (if r = c + 1 then -(lam * sigma) else 0)))

/-- Embeds `DiffusionEquationSolver1d._ordinate_values`. -/
def _ordinate_values (sigma lam : ℚ) (prev : List (Option ℚ)) : List ℚ :=
  (List.range (prev.length - 2)).map (fun j =>
    (1 - sigma) * lam * cellD prev (j + 2)
    + (1 - 2 * (1 - sigma) * lam) * cellD prev (j + 1)
    + (1 - sigma) * lam * cellD prev j)

/-- Row 0 of `DiffusionEquationSolver1d.__call__`'s seeding:
`solution[0] = u0(space_grid)` over an `np.empty` buffer. -/
def init_rows (u0 : ℚ → ℚ) (tg sg : List ℚ) : List (List (Option ℚ)) :=
  (tg.map (fun _ => sg.map (fun _ => (none : Option ℚ)))).set 0
    (sg.map (fun xv => some (u0 xv)))

/-- Seeding phase of `DiffusionEquationSolver1d.__call__`: row 0, then both
boundary columns from `ua`, `ub`, in program order. -/
def seed (u0 ua ub : ℚ → ℚ) (tg sg : List ℚ) : List (List (Option ℚ)) :=
  col_set (sg.length - 1) ub (col_set 0 ua (init_rows u0 tg sg) tg) tg

/-- The `for i in range(1, len(time_grid))` marching loop. -/
def march (linsolve : List (List ℚ) → List ℚ → List ℚ) (sigma lam : ℚ)
    (tg : List ℚ) (sol0 : List (List (Option ℚ))) : List (List (Option ℚ)) :=
  (List.range tg.length).foldl (fun s i =>
    if i < 1 then s
    else
      s.set i (set_interior (s.getD i [])
        (linsolve (_coef_matrix sigma lam ((s.getD 0 []).length - 2))
          (_ordinate_values sigma lam (s.getD (i - 1) []))))) sol0

/-- Embeds `DiffusionEquationSolver1d.__call__`: the stability assertion (only
for `sigma < 1`) comes first, then the endpoint assertions, then seeding and
marching with `lam = tau/h/h`. -/
def call (tauOpt hOpt : Option ℚ) (u0 ua ub : ℚ → ℚ)
    (linsolve : List (List ℚ) → List ℚ → List ℚ)
    (time_grid space_grid t x : List ℚ) (sigma : ℚ) :
    Except String (List (List (Option ℚ))) :=
  if sigma < 1 ∧
      ¬ ((effective_steps tauOpt hOpt time_grid space_grid).1 ≤
         (effective_steps tauOpt hOpt time_grid space_grid).2 *
           (effective_steps tauOpt hOpt time_grid space_grid).2 / 2 / (1 - sigma)) then
    Except.error stabilityMsg
  else if time_grid.getD 0 0 = t.getD 0 0 ∧ time_grid.getLastD 0 = t.getLastD 0 then
    if space_grid.getD 0 0 = x.getD 0 0 ∧ space_grid.getLastD 0 = x.getLastD 0 then
      Except.ok (march linsolve sigma
        ((effective_steps tauOpt hOpt time_grid space_grid).1 /
            (effective_steps tauOpt hOpt time_grid space_grid).2 /
            (effective_steps tauOpt hOpt time_grid space_grid).2)
        time_grid (seed u0 ua ub time_grid space_grid))
    else Except.error edgeMsg
  else Except.error edgeMsg

end Diffusion

end Sde

/-- Reads one cell of a PDE solution buffer wrapped in `Except`; an assertion
failure yields `none`. -/
def cell2d (r : Except String (List (List (Option ℚ)))) (i j : ℕ) : Option ℚ :=
  match r with
  | Except.error _ => none
  | Except.ok buf => (buf.getD i []).getD j none

/-- C1: evaluation of the diffusion coefficient matrix at `sigma = 1/2`,
`lam = 1`, `n = 2` — the superdiagonal entry produced by the code is
`-sigma*lam*sigma = -1/4`, not the `-sigma*lam = -1/2` of the claimed symmetric
tridiagonal form, while the subdiagonal entry is `-1/2`: the assembled matrix
is not symmetric for `0 < sigma < 1`.  The right-hand-side builder does match
the claimed form (stated in general). -/
theorem C1_diffusion_matrix_superdiag :
    ((Sde.Diffusion._coef_matrix (1/2) 1 2).getD 0 []).getD 1 0 = -(1/4) ∧
    ((Sde.Diffusion._coef_matrix (1/2) 1 2).getD 1 []).getD 0 0 = -(1/2) ∧
    ((Sde.Diffusion._coef_matrix (1/2) 1 2).getD 0 []).getD 1 0 ≠ -((1/2 : ℚ) * 1) ∧
    (∀ (sigma lam : ℚ) (prev : List (Option ℚ)) (j : ℕ) (hj : j < prev.length - 2),
      (Sde.Diffusion._ordinate_values sigma lam prev).getD j 0 =
        (1 - sigma) * lam * Sde.cellD prev (j + 2)
        + (1 - 2 * (1 - sigma) * lam) * Sde.cellD prev (j + 1)
        + (1 - sigma) * lam * Sde.cellD prev j) := by
  have e01 : ((Sde.Diffusion._coef_matrix (1/2) 1 2).getD 0 []).getD 1 0 = -(1/4) := by
    unfold Sde.Diffusion._coef_matrix
    rw [Helper.getD_range_map _ 2 0 [] (by norm_num),
        Helper.getD_range_map _ 2 1 0 (by norm_num)]
    norm_num
  have e10 : ((Sde.Diffusion._coef_matrix (1/2) 1 2).getD 1 []).getD 0 0 = -(1/2) := by
    unfold Sde.Diffusion._coef_matrix
    rw [Helper.getD_range_map _ 2 1 [] (by norm_num),
        Helper.getD_range_map _ 2 0 0 (by norm_num)]
    norm_num
  refine ⟨e01, e10, ?_, ?_⟩
  · rw [e01]
    norm_num
  · intro sigma lam prev j hj
    unfold Sde.Diffusion._ordinate_values
    exact Helper.getD_range_map _ _ _ _ hj

/-- C3: with `sigma < 1` and the effective time step exceeding
`h^2 / (2*(1 - sigma))`, the diffusion solve fails with the stability assertion
before any marching (no buffer is produced); and with `sigma = 1` the stability
assertion can never fire. -/
theorem C3_diffusion_stability_guard (tauOpt hOpt : Option ℚ) (u0 ua ub : ℚ → ℚ)
    (linsolve : List (List ℚ) → List ℚ → List ℚ) (tg sg t x : List ℚ) (sigma : ℚ)
    (hsig : sigma < 1)
    (hviol : (Sde.effective_steps tauOpt hOpt tg sg).2 *
        (Sde.effective_steps tauOpt hOpt tg sg).2 / 2 / (1 - sigma) <
      (Sde.effective_steps tauOpt hOpt tg sg).1) :
    Sde.Diffusion.call tauOpt hOpt u0 ua ub linsolve tg sg t x sigma =
      Except.error Sde.stabilityMsg ∧
    ∀ t' x', Sde.Diffusion.call tauOpt hOpt u0 ua ub linsolve tg sg t' x' 1 ≠
      Except.error Sde.stabilityMsg := by
  constructor
  · simp only [Sde.Diffusion.call]
    rw [if_pos (And.intro hsig (not_le.mpr hviol))]
  · intro t' x' hcon
    simp only [Sde.Diffusion.call] at hcon
    rw [if_neg (fun hc => absurd hc.1 (lt_irrefl 1))] at hcon
    by_cases h1 : tg.getD 0 0 = t'.getD 0 0 ∧ tg.getLastD 0 = t'.getLastD 0
    · rw [if_pos h1] at hcon
      by_cases h2 : sg.getD 0 0 = x'.getD 0 0 ∧ sg.getLastD 0 = x'.getLastD 0
      · rw [if_pos h2] at hcon
        exact Except.noConfusion hcon
      · rw [if_neg h2] at hcon
        have hmsg : Sde.edgeMsg = Sde.stabilityMsg := by injection hcon
        exact absurd hmsg (by decide)
    · rw [if_neg h1] at hcon
      have hmsg : Sde.edgeMsg = Sde.stabilityMsg := by injection hcon
      exact absurd hmsg (by decide)

/-- C3 witness: `tau = 1, h = 1, sigma = 0` violates `tau ≤ h^2/2`, and the
solve call returns the stability error. -/
theorem C3_diffusion_stability_guard_witness :
    Sde.Diffusion.call (some 1) (some 1) (fun _ => 0) (fun _ => 0) (fun _ => 0)
        (fun _ b => b) [0, 1] [0, 1] [0, 1] [0, 1] 0 =
      Except.error Sde.stabilityMsg :=
  (C3_diffusion_stability_guard (some 1) (some 1) (fun _ => 0) (fun _ => 0) (fun _ => 0)
    (fun _ b => b) [0, 1] [0, 1] [0, 1] [0, 1] 0 (by norm_num)
    (by norm_num [Sde.effective_steps])).1

namespace Sde

theorem col_set_getD (k : ℕ) (g : ℚ → ℚ) (rows : List (List (Option ℚ))) (tg : List ℚ)
    (r : ℕ) (hr : r < rows.length) (hr2 : r < tg.length) :
    (col_set k g rows tg).getD r [] = (rows.getD r []).set k (some (g (tg.getD r 0))) := by
  unfold col_set
  induction rows generalizing tg r with
  | nil => simp at hr
  | cons a as ih =>
    cases tg with
    | nil => simp at hr2
    | cons b bs =>
      cases r with
      | zero => simp [List.getD]
      | succ r =>
        simp only [List.zip_cons_cons, List.map, Helper.getD_cons_succ']
        exact ih bs r (by simpa using hr) (by simpa using hr2)

theorem col_set_length (k : ℕ) (g : ℚ → ℚ) (rows : List (List (Option ℚ)))
    (tg : List ℚ) : (col_set k g rows tg).length = min rows.length tg.length := by
  simp [col_set]

theorem foldl_rows_preserve (step : List (List (Option ℚ)) → ℕ → List (List (Option ℚ)))
    (r : ℕ) (hstep : ∀ s i, (step s i).getD r [] = s.getD r []) :
    ∀ (L : List ℕ) (sol : List (List (Option ℚ))),
      (L.foldl step sol).getD r [] = sol.getD r [] := by
  intro L
  induction L with
  | nil => intro sol; rfl
  | cons i L' ih =>
    intro sol
    rw [List.foldl_cons, ih, hstep]

theorem wave_march_low_rows (linsolve : List (List ℚ) → List ℚ → List ℚ)
    (sigma lam : ℚ) (tg : List ℚ) (sol0 : List (List (Option ℚ))) (r : ℕ)
    (hr : r < 2) :
    (Wave.march linsolve sigma lam tg sol0).getD r [] = sol0.getD r [] := by
  unfold Wave.march
  apply foldl_rows_preserve
  intro s i
  by_cases hi : i < 2
  · simp only [if_pos hi]
  · simp only [if_neg hi]
    exact Helper.getD_set_ne _ _ _ _ _ (by omega)

theorem diffusion_march_row_zero (linsolve : List (List ℚ) → List ℚ → List ℚ)
    (sigma lam : ℚ) (tg : List ℚ) (sol0 : List (List (Option ℚ))) :
    (Diffusion.march linsolve sigma lam tg sol0).getD 0 [] = sol0.getD 0 [] := by
  unfold Diffusion.march
  apply foldl_rows_preserve
  intro s i
  by_cases hi : i < 1
  · simp only [if_pos hi]
  · simp only [if_neg hi]
    exact Helper.getD_set_ne _ _ _ _ _ (by omega)

theorem wave_init_rows_length (u0 ut0 : ℚ → ℚ) (tg sg t : List ℚ) :
    (Wave.init_rows u0 ut0 tg sg t).length = tg.length := by
  simp [Wave.init_rows]

theorem wave_init_rows_getD0 (u0 ut0 : ℚ → ℚ) (tg sg t : List ℚ)
    (htg : 1 ≤ tg.length) :
    (Wave.init_rows u0 ut0 tg sg t).getD 0 [] = sg.map (fun xv => some (u0 xv)) := by
  unfold Wave.init_rows
  rw [Helper.getD_set_ne _ _ _ _ _ (by omega)]
  exact Helper.getD_set_self _ _ _ _ (by simp; omega)

theorem wave_init_rows_getD1 (u0 ut0 : ℚ → ℚ) (tg sg t : List ℚ)
    (htg : 2 ≤ tg.length) :
    (Wave.init_rows u0 ut0 tg sg t).getD 1 [] =
      sg.map (fun xv => some (u0 xv + (t.getD 1 0 - t.getD 0 0) * ut0 xv)) :=
  Helper.getD_set_self _ _ _ _ (by simp; omega)

theorem wave_seed_getD (u0 ut0 ua ub : ℚ → ℚ) (tg sg t : List ℚ) (r : ℕ)
    (hr : r < tg.length) :
    (Wave.seed u0 ut0 ua ub tg sg t).getD r [] =
      (((Wave.init_rows u0 ut0 tg sg t).getD r []).set 0
        (some (ua (tg.getD r 0)))).set (sg.length - 1) (some (ub (tg.getD r 0))) := by
  unfold Wave.seed
  rw [col_set_getD (sg.length - 1) ub (col_set 0 ua (Wave.init_rows u0 ut0 tg sg t) tg)
      tg r (by rw [col_set_length, wave_init_rows_length]; omega) hr,
    col_set_getD 0 ua (Wave.init_rows u0 ut0 tg sg t) tg r
      (by rw [wave_init_rows_length]; omega) hr]

theorem diffusion_init_rows_length (u0 : ℚ → ℚ) (tg sg : List ℚ) :
    (Diffusion.init_rows u0 tg sg).length = tg.length := by
  simp [Diffusion.init_rows]

theorem diffusion_init_rows_getD0 (u0 : ℚ → ℚ) (tg sg : List ℚ)
    (htg : 1 ≤ tg.length) :
    (Diffusion.init_rows u0 tg sg).getD 0 [] = sg.map (fun xv => some (u0 xv)) :=
  Helper.getD_set_self _ _ _ _ (by simp; omega)

theorem diffusion_seed_getD (u0 ua ub : ℚ → ℚ) (tg sg : List ℚ) (r : ℕ)
    (hr : r < tg.length) :
    (Diffusion.seed u0 ua ub tg sg).getD r [] =
      (((Diffusion.init_rows u0 tg sg).getD r []).set 0
        (some (ua (tg.getD r 0)))).set (sg.length - 1) (some (ub (tg.getD r 0))) := by
  unfold Diffusion.seed
  rw [col_set_getD (sg.length - 1) ub (col_set 0 ua (Diffusion.init_rows u0 tg sg) tg)
      tg r (by rw [col_set_length, diffusion_init_rows_length]; omega) hr,
    col_set_getD 0 ua (Diffusion.init_rows u0 tg sg) tg r
      (by rw [diffusion_init_rows_length]; omega) hr]

theorem wave_seed_interior (u0 ut0 ua ub : ℚ → ℚ) (tg sg t : List ℚ) (j : ℕ)
    (htg : 2 ≤ tg.length) (hj1 : 1 ≤ j) (hj2 : j + 1 < sg.length) :
    ((Wave.seed u0 ut0 ua ub tg sg t).getD 0 []).getD j none = some (u0 (sg.getD j 0)) ∧
    ((Wave.seed u0 ut0 ua ub tg sg t).getD 1 []).getD j none =
      some (u0 (sg.getD j 0) + (t.getD 1 0 - t.getD 0 0) * ut0 (sg.getD j 0)) := by
  have hm : sg.length - 1 ≠ j := by omega
  have h0 : (0 : ℕ) ≠ j := by omega
  constructor
  · rw [wave_seed_getD u0 ut0 ua ub tg sg t 0 (by omega),
      wave_init_rows_getD0 u0 ut0 tg sg t (by omega),
      Helper.getD_set_ne _ _ _ _ _ hm, Helper.getD_set_ne _ _ _ _ _ h0]
    exact Helper.getD_map_of_lt _ sg j none 0 (by omega)
  · rw [wave_seed_getD u0 ut0 ua ub tg sg t 1 (by omega),
      wave_init_rows_getD1 u0 ut0 tg sg t htg,
      Helper.getD_set_ne _ _ _ _ _ hm, Helper.getD_set_ne _ _ _ _ _ h0]
    exact Helper.getD_map_of_lt _ sg j none 0 (by omega)

theorem wave_seed_corners (u0 ut0 ua ub : ℚ → ℚ) (tg sg t : List ℚ)
    (htg : 2 ≤ tg.length) (hsg : 2 ≤ sg.length) :
    ((Wave.seed u0 ut0 ua ub tg sg t).getD 0 []).getD 0 none = some (ua (tg.getD 0 0)) ∧
    ((Wave.seed u0 ut0 ua ub tg sg t).getD 0 []).getD (sg.length - 1) none =
      some (ub (tg.getD 0 0)) ∧
    ((Wave.seed u0 ut0 ua ub tg sg t).getD 1 []).getD 0 none = some (ua (tg.getD 1 0)) ∧
    ((Wave.seed u0 ut0 ua ub tg sg t).getD 1 []).getD (sg.length - 1) none =
      some (ub (tg.getD 1 0)) := by
  have hm0 : sg.length - 1 ≠ 0 := by omega
  refine ⟨?_, ?_, ?_, ?_⟩
  · rw [wave_seed_getD u0 ut0 ua ub tg sg t 0 (by omega),
      wave_init_rows_getD0 u0 ut0 tg sg t (by omega),
      Helper.getD_set_ne _ _ _ _ _ hm0]
    exact Helper.getD_set_self _ _ _ _ (by simp; omega)
  · rw [wave_seed_getD u0 ut0 ua ub tg sg t 0 (by omega),
      wave_init_rows_getD0 u0 ut0 tg sg t (by omega)]
    exact Helper.getD_set_self _ _ _ _ (by simp; omega)
  · rw [wave_seed_getD u0 ut0 ua ub tg sg t 1 (by omega),
      wave_init_rows_getD1 u0 ut0 tg sg t htg,
      Helper.getD_set_ne _ _ _ _ _ hm0]
    exact Helper.getD_set_self _ _ _ _ (by simp; omega)
  · rw [wave_seed_getD u0 ut0 ua ub tg sg t 1 (by omega),
      wave_init_rows_getD1 u0 ut0 tg sg t htg]
    exact Helper.getD_set_self _ _ _ _ (by simp; omega)

theorem diffusion_seed_corners (u0 ua ub : ℚ → ℚ) (tg sg : List ℚ)
    (htg : 1 ≤ tg.length) (hsg : 2 ≤ sg.length) :
    ((Diffusion.seed u0 ua ub tg sg).getD 0 []).getD 0 none =
      some (ua (tg.getD 0 0)) ∧
    ((Diffusion.seed u0 ua ub tg sg).getD 0 []).getD (sg.length - 1) none =
      some (ub (tg.getD 0 0)) := by
  have hm0 : sg.length - 1 ≠ 0 := by omega
  constructor
  · rw [diffusion_seed_getD u0 ua ub tg sg 0 (by omega),
      diffusion_init_rows_getD0 u0 tg sg htg,
      Helper.getD_set_ne _ _ _ _ _ hm0]
    exact Helper.getD_set_self _ _ _ _ (by simp; omega)
  · rw [diffusion_seed_getD u0 ua ub tg sg 0 (by omega),
      diffusion_init_rows_getD0 u0 tg sg htg]
    exact Helper.getD_set_self _ _ _ _ (by simp; omega)

end Sde

/-- C6 counterexample: wave solver configured with `time_step = space_step = 1`
over requested `t = x = [0, 2]`, so the built grids are `[0, 1, 2]` and the
first time-grid interval is `1`, while `t[1] - t[0] = 2`.  With `u0 = 0`,
`ut0 = 1` the claim predicts `solution[1][1] = u0 + 1 * ut0 = 1`, but the code
seeds `u0 + (t[1]-t[0]) * ut0 = 2`.  (The boundary functions `ua = ub = 5`
also overwrite `u0` at the corners of row 0, a second divergence from the
claim.) -/
theorem C6_counterexample :
    cell2d (Sde.Wave.call (some 1) (some 1) (fun _ => 0) (fun _ => 1) (fun _ => 5)
        (fun _ => 5) (fun _ b => b.map (fun _ => 0)) [0, 1, 2] [0, 1, 2] [0, 2] [0, 2] 1)
      1 1 = some 2 ∧
    (0 : ℚ) + (([0, 1, 2] : List ℚ).getD 1 0 - ([0, 1, 2] : List ℚ).getD 0 0) * 1 = 1 ∧
    ((2 : ℚ) ≠ (1 : ℚ)) ∧
    cell2d (Sde.Wave.call (some 1) (some 1) (fun _ => 0) (fun _ => 1) (fun _ => 5)
        (fun _ => 5) (fun _ b => b.map (fun _ => 0)) [0, 1, 2] [0, 1, 2] [0, 2] [0, 2] 1)
      0 0 = some 5 := by
  have ht : ([0, 1, 2] : List ℚ).getD 0 0 = ([0, 2] : List ℚ).getD 0 0 ∧
      ([0, 1, 2] : List ℚ).getLastD 0 = ([0, 2] : List ℚ).getLastD 0 := ⟨rfl, rfl⟩
  refine ⟨?_, by norm_num, by norm_num, ?_⟩
  · simp only [Sde.Wave.call, if_pos ht, cell2d]
    rw [Sde.wave_march_low_rows _ _ _ _ _ 1 (by omega)]
    have h := Sde.wave_seed_interior (fun _ => (0 : ℚ)) (fun _ => 1) (fun _ => 5)
      (fun _ => 5) [0, 1, 2] [0, 1, 2] [0, 2] 1 (by norm_num) (by norm_num) (by norm_num)
    rw [h.2]
    norm_num
  · simp only [Sde.Wave.call, if_pos ht, cell2d]
    rw [Sde.wave_march_low_rows _ _ _ _ _ 0 (by omega)]
    have h := Sde.wave_seed_corners (fun _ => (0 : ℚ)) (fun _ => 1) (fun _ => 5)
      (fun _ => 5) [0, 1, 2] [0, 1, 2] [0, 2] (by norm_num) (by norm_num)
    exact h.1

/-- C6 (amended): before marching begins, the INTERIOR entries of row 0 equal
`u0` on the space grid and the interior entries of row 1 equal
`u0 + Δt*ut0` where `Δt = t[1] - t[0]` is the first interval of the
caller-supplied requested time array (not of the constructed time grid);
the boundary columns of rows 0 and 1 are overwritten by `ua`/`ub`. -/
theorem C6_amended_wave_seeding (tauOpt hOpt : Option ℚ) (u0 ut0 ua ub : ℚ → ℚ)
    (linsolve : List (List ℚ) → List ℚ → List ℚ) (tg sg t x : List ℚ) (sigma : ℚ)
    (j : ℕ)
    (ht : tg.getD 0 0 = t.getD 0 0 ∧ tg.getLastD 0 = t.getLastD 0)
    (hx : sg.getD 0 0 = x.getD 0 0 ∧ sg.getLastD 0 = x.getLastD 0)
    (htg : 2 ≤ tg.length) (hj1 : 1 ≤ j) (hj2 : j + 1 < sg.length) :
    cell2d (Sde.Wave.call tauOpt hOpt u0 ut0 ua ub linsolve tg sg t x sigma) 0 j =
      some (u0 (sg.getD j 0)) ∧
    cell2d (Sde.Wave.call tauOpt hOpt u0 ut0 ua ub linsolve tg sg t x sigma) 1 j =
      some (u0 (sg.getD j 0) + (t.getD 1 0 - t.getD 0 0) * ut0 (sg.getD j 0)) := by
  simp only [Sde.Wave.call, if_pos ht, if_pos hx, cell2d]
  rw [Sde.wave_march_low_rows _ _ _ _ _ 0 (by omega),
    Sde.wave_march_low_rows _ _ _ _ _ 1 (by omega)]
  exact Sde.wave_seed_interior u0 ut0 ua ub tg sg t j htg hj1 hj2

/-- C6 amended witness: concrete wave configuration in identity-grid mode. -/
theorem C6_amended_wave_seeding_witness :
    cell2d (Sde.Wave.call none none (fun _ => 3) (fun _ => 7) (fun _ => 5) (fun _ => 5)
        (fun _ b => b) [0, 1, 2] [0, 1, 2] [0, 1, 2] [0, 1, 2] 1) 0 1 = some 3 ∧
    cell2d (Sde.Wave.call none none (fun _ => 3) (fun _ => 7) (fun _ => 5) (fun _ => 5)
        (fun _ b => b) [0, 1, 2] [0, 1, 2] [0, 1, 2] [0, 1, 2] 1) 1 1 =
      some (3 + (1 - 0) * 7) :=
  C6_amended_wave_seeding none none (fun _ => 3) (fun _ => 7) (fun _ => 5) (fun _ => 5)
    (fun _ b => b) [0, 1, 2] [0, 1, 2] [0, 1, 2] [0, 1, 2] 1 1
    ⟨rfl, rfl⟩ ⟨rfl, rfl⟩ (by norm_num) (by norm_num) (by norm_num)

/-- C10: in both PDE solvers the boundary columns are written after the
initial row(s), so the boundary functions win at the corner cells:
`solution[0][0] = ua(tg[0])` and `solution[0][last] = ub(tg[0])` for both
solvers (and likewise for row 1 of the wave solver), for every `u0`. -/
theorem C10_boundary_precedence (tauOptD hOptD tauOptW hOptW : Option ℚ)
    (u0d uad ubd u0w ut0w uaw ubw : ℚ → ℚ)
    (linsolve : List (List ℚ) → List ℚ → List ℚ) (tg sg t x : List ℚ)
    (sigmaD sigmaW : ℚ)
    (hstab : ¬ (sigmaD < 1 ∧
      ¬ ((Sde.effective_steps tauOptD hOptD tg sg).1 ≤
         (Sde.effective_steps tauOptD hOptD tg sg).2 *
           (Sde.effective_steps tauOptD hOptD tg sg).2 / 2 / (1 - sigmaD))))
    (ht : tg.getD 0 0 = t.getD 0 0 ∧ tg.getLastD 0 = t.getLastD 0)
    (hx : sg.getD 0 0 = x.getD 0 0 ∧ sg.getLastD 0 = x.getLastD 0)
    (htg : 2 ≤ tg.length) (hsg : 2 ≤ sg.length) :
    cell2d (Sde.Diffusion.call tauOptD hOptD u0d uad ubd linsolve tg sg t x sigmaD)
      0 0 = some (uad (tg.getD 0 0)) ∧
    cell2d (Sde.Diffusion.call tauOptD hOptD u0d uad ubd linsolve tg sg t x sigmaD)
      0 (sg.length - 1) = some (ubd (tg.getD 0 0)) ∧
    cell2d (Sde.Wave.call tauOptW hOptW u0w ut0w uaw ubw linsolve tg sg t x sigmaW)
      0 0 = some (uaw (tg.getD 0 0)) ∧
    cell2d (Sde.Wave.call tauOptW hOptW u0w ut0w uaw ubw linsolve tg sg t x sigmaW)
      0 (sg.length - 1) = some (ubw (tg.getD 0 0)) ∧
    cell2d (Sde.Wave.call tauOptW hOptW u0w ut0w uaw ubw linsolve tg sg t x sigmaW)
      1 0 = some (uaw (tg.getD 1 0)) ∧
    cell2d (Sde.Wave.call tauOptW hOptW u0w ut0w uaw ubw linsolve tg sg t x sigmaW)
      1 (sg.length - 1) = some (ubw (tg.getD 1 0)) := by
  have hd := Sde.diffusion_seed_corners u0d uad ubd tg sg (by omega) hsg
  have hw := Sde.wave_seed_corners u0w ut0w uaw ubw tg sg t htg hsg
  simp only [Sde.Diffusion.call, Sde.Wave.call, if_neg hstab, if_pos ht, if_pos hx,
    cell2d]
  rw [Sde.diffusion_march_row_zero,
    Sde.wave_march_low_rows _ _ _ _ _ 0 (by omega),
    Sde.wave_march_low_rows _ _ _ _ _ 1 (by omega)]
  exact ⟨hd.1, hd.2, hw.1, hw.2.1, hw.2.2.1, hw.2.2.2⟩

/-- C10 witness: concrete identity-grid configuration for both solvers with
`u0` constant `9` differing from the boundary values `ua = 5`, `ub = 6`. -/
theorem C10_boundary_precedence_witness :
    cell2d (Sde.Diffusion.call none none (fun _ => 9) (fun _ => 5) (fun _ => 6)
      (fun _ b => b) [0, 1, 2] [0, 1, 2] [0, 1, 2] [0, 1, 2] 1) 0 0 = some 5 ∧
    cell2d (Sde.Diffusion.call none none (fun _ => 9) (fun _ => 5) (fun _ => 6)
      (fun _ b => b) [0, 1, 2] [0, 1, 2] [0, 1, 2] [0, 1, 2] 1) 0 2 = some 6 ∧
    cell2d (Sde.Wave.call none none (fun _ => 9) (fun _ => 7) (fun _ => 5) (fun _ => 6)
      (fun _ b => b) [0, 1, 2] [0, 1, 2] [0, 1, 2] [0, 1, 2] 1) 0 0 = some 5 ∧
    cell2d (Sde.Wave.call none none (fun _ => 9) (fun _ => 7) (fun _ => 5) (fun _ => 6)
      (fun _ b => b) [0, 1, 2] [0, 1, 2] [0, 1, 2] [0, 1, 2] 1) 0 2 = some 6 ∧
    cell2d (Sde.Wave.call none none (fun _ => 9) (fun _ => 7) (fun _ => 5) (fun _ => 6)
      (fun _ b => b) [0, 1, 2] [0, 1, 2] [0, 1, 2] [0, 1, 2] 1) 1 0 = some 5 ∧
    cell2d (Sde.Wave.call none none (fun _ => 9) (fun _ => 7) (fun _ => 5) (fun _ => 6)
      (fun _ b => b) [0, 1, 2] [0, 1, 2] [0, 1, 2] [0, 1, 2] 1) 1 2 = some 6 :=
  C10_boundary_precedence none none none none (fun _ => 9) (fun _ => 5) (fun _ => 6)
    (fun _ => 9) (fun _ => 7) (fun _ => 5) (fun _ => 6) (fun _ b => b)
    [0, 1, 2] [0, 1, 2] [0, 1, 2] [0, 1, 2] 1 1
    (by norm_num) ⟨rfl, rfl⟩ ⟨rfl, rfl⟩ (by norm_num) (by norm_num)
